import Mathlib

/-!
Shallow embedding of the dsrv-poap contract (src/contract.rs, src/error.rs):
a proof-of-attendance registry. `execute_register_event` creates an event
record keyed by name after validation (`build_event`); `execute_mint_badge`
issues at most one badge per (event, attendee) pair, writing two mirrored
indexes. The persistent store (the cw-storage-plus maps `EVENTS`,
`ATTENDEES`, `BADGES` and the demo counter item `STATE`, declared in the
repository's state.rs) is modelled as explicit association lists threaded
through each operation; machine integers (`u64` timestamps) are modelled as
`Nat` (no arithmetic is performed on them, only comparisons, so overflow
cannot occur).
-/

deriving instance DecidableEq for Except

namespace DsrvPoap

/-- EventData record stored in `EVENTS` (fields as constructed in
`build_event` in contract.rs: owner, name, image, description, start_time,
end_time; `owner` is a bech32 address modelled as a string, the timestamps
are `u64` seconds). -/
structure EventData where
  owner : String
  name : String
  image : String
  description : String
  start_time : Nat
  end_time : Nat
deriving DecidableEq

/-- BadgeData record stored in both badge indexes (contract.rs line 151:
`BadgeData { was_late }`). -/
structure BadgeData where
  was_late : Bool
deriving DecidableEq

/-- Demo counter state held by the `STATE` item (contract.rs `query_count`
reads `state.count`; the item type lives in state.rs, whose field `count`
is the single integer counter of the count query). -/
structure CounterState where
  count : Int
deriving DecidableEq

/-- The slice of `Env` the contract reads: `env.block.time.seconds()`,
modelled as `time : Nat`. -/
structure Env where
  time : Nat
deriving DecidableEq

/-- The slice of `MessageInfo` the contract reads: `info.sender`. -/
structure MessageInfo where
  sender : String
deriving DecidableEq

/-- ContractError (error.rs), together with the `EventNotStarted` and
`BadgeAlreadyIssued` variants referenced by contract.rs. `Std` is the
`#[from] StdError` variant carrying the underlying message (store
not-found errors and address-validation errors arrive through it via
the `?` operator). -/
inductive ContractError where
  | Std (msg : String)
  | Unauthorized
  | EventAlreadyRegistered
  | NameTooShort
  | NameTooLong
  | InvalidImageURL (url : String)
  | StartBeforeEnd
  | EventAlreadyOver
  | EventNotStarted
  | BadgeAlreadyIssued
deriving DecidableEq

/-- Response: the attributes added with `add_attribute` and the events
added with `add_event` (each event is a type plus its attributes). -/
structure Response where
  attributes : List (String × String)
  events : List (String × List (String × String))
deriving DecidableEq

/-- A cw-storage-plus `Map` modelled as an association list; `mapGet`
models `may_load`/`load` lookup: the first binding of the key wins. -/
def mapGet {α β : Type} [DecidableEq α] (k : α) : List (α × β) → Option β
  | [] => none
  | e :: rest => if e.1 = k then some e.2 else mapGet k rest

/-- `Map::save`: bind `k` to `v`; as the first binding shadows later ones
this has overwrite semantics with respect to `mapGet`. -/
def mapSet {α β : Type} [DecidableEq α] (k : α) (v : β) (m : List (α × β)) :
    List (α × β) :=
  (k, v) :: m

/-- The persistent store: `EVENTS : Map<&str, EventData>`,
`ATTENDEES : Map<(&str, &Addr), BadgeData>`,
`BADGES : Map<(&Addr, &str), BadgeData>`, and the demo `STATE` item
(`none` when never written). -/
structure Store where
  events : List (String × EventData)
  attendees : List ((String × String) × BadgeData)
  badges : List ((String × String) × BadgeData)
  state : Option CounterState
deriving DecidableEq

/-- The store right after `instantiate`, which only records contract
version metadata (cw2 `set_contract_version`) outside the four modelled
regions: all maps empty, `STATE` never written. -/
def Store.emptyInit : Store :=
  { events := [], attendees := [], badges := [], state := none }

/-- Rust `char` UTF-8 width, used to model `String::len` (byte length). -/
def charUtf8Len (c : Char) : Nat :=
  if c.val ≤ 0x7F then 1
  else if c.val ≤ 0x7FF then 2
  else if c.val ≤ 0xFFFF then 3
  else 4

/-- Rust `String::len`: the UTF-8 byte length of the string (not the
character count). -/
def strLen (s : String) : Nat :=
  s.data.foldl (fun n c => n + charUtf8Len c) 0

/-- Rust `str::starts_with` on string patterns (contract.rs line 102 spells
it `startswith`; the only method of that shape on `str` is `starts_with`,
which this models). -/
def strStarts (s pre : String) : Bool :=
  pre.data.isPrefixOf s.data

/-- An address-validation oracle standing for `deps.api.addr_validate`:
given the raw attendee string it either fails with a `StdError` message or
returns the canonical validated address (which the contract then uses as
the map key). It is an external collaborator, so operations are proved for
every such oracle. -/
def Api : Type := String → Except String String

/-- build_event (contract.rs lines 87-122): short-circuit validation of a
new event, in source order — name too short, name too long, image scheme,
inverted window, window already over — then construction of the record
with `owner := info.sender`. -/
def build_event (env : Env) (info : MessageInfo) (name image description : String)
    (start_time end_time : Nat) : Except ContractError EventData :=
  if strLen name < 2 then .error .NameTooShort
  else if strLen name > 100 then .error .NameTooLong
  else if ¬ strStarts image "https://" then .error (.InvalidImageURL image)
  else if start_time ≥ end_time then .error .StartBeforeEnd
  else if end_time < env.time then .error .EventAlreadyOver
  else .ok { owner := info.sender, name := name, image := image,
             description := description, start_time := start_time,
             end_time := end_time }

/-- execute_register_event (contract.rs lines 59-84): duplicate-name check
first, then `build_event`, then `EVENTS.save`; returns the store at the
point of return together with the result (errors return before the write,
matching the transactional host semantics). -/
def execute_register_event (env : Env) (info : MessageInfo)
    (name image description : String) (start_time end_time : Nat)
    (store : Store) : Store × Except ContractError Response :=
  if (mapGet name store.events).isSome then
    (store, .error .EventAlreadyRegistered)
  else
    match build_event env info name image description start_time end_time with
    | .error e => (store, .error e)
    | .ok event =>
      ({ store with events := mapSet name event store.events },
       .ok { attributes := [("register_event", name)], events := [] })

/-- execute_mint_badge (contract.rs lines 124-159): load the event
(`EVENTS.load` fails with a not-found `StdError` when absent), owner
check, not-started check, already-over check, address validation,
duplicate-badge check, then the two index writes and the `mint-badge`
response event. -/
def execute_mint_badge (api : Api) (env : Env) (info : MessageInfo)
    (event attendee : String) (was_late : Bool) (store : Store) :
    Store × Except ContractError Response :=
  match mapGet event store.events with
  | none => (store, .error (.Std "dsrv_poap::state::EventData not found"))
  | some data =>
    if info.sender ≠ data.owner then (store, .error .Unauthorized)
    else if env.time < data.start_time then (store, .error .EventNotStarted)
    else if env.time > data.end_time then (store, .error .EventAlreadyOver)
    else
      match api attendee with
      | .error m => (store, .error (.Std m))
      | .ok addr =>
        if (mapGet (event, addr) store.attendees).isSome then
          (store, .error .BadgeAlreadyIssued)
        else
          let badge : BadgeData := { was_late := was_late }
          ({ store with
              attendees := mapSet (event, addr) badge store.attendees,
              badges := mapSet (addr, event) badge store.badges },
           .ok { attributes := [],
                 events := [("mint-badge",
                             [("event", event), ("attendee", addr)])] })

/-- query_count (contract.rs lines 168-171): read-only; takes the store and
returns only a response, so it cannot mutate state. -/
def query_count (store : Store) : Except String Int :=
  match store.state with
  | none => .error "dsrv_poap::state::State not found"
  | some st => .ok st.count

/-- One externally triggered state transition: the store component of one
`execute` dispatch (either message), whatever its outcome — failing calls
return the entry store, so they appear here as identity steps. `query` has
no store component and so induces no step. -/
inductive Step : Store → Store → Prop where
  | register : ∀ (s : Store) (env : Env) (info : MessageInfo)
      (name image description : String) (start_time end_time : Nat),
      Step s (execute_register_event env info name image description
                start_time end_time s).1
  | mint : ∀ (s : Store) (api : Api) (env : Env) (info : MessageInfo)
      (event attendee : String) (was_late : Bool),
      Step s (execute_mint_badge api env info event attendee was_late s).1

/-- Stores reachable from `t` by any sequence of contract calls. -/
inductive ReachableFrom : Store → Store → Prop where
  | refl : ∀ s, ReachableFrom s s
  | tail : ∀ s t u, ReachableFrom s t → Step t u → ReachableFrom s u

/-- Stores reachable from the freshly instantiated contract. -/
def Reachable (s : Store) : Prop :=
  ReachableFrom Store.emptyInit s

/-- An address-validation oracle that accepts every address verbatim, used
to instantiate theorems on the concrete end-to-end scenario. -/
def okApi : Api := fun a => .ok a

/-- An address-validation oracle that rejects every address, standing for a
malformed-input response from the host. -/
def rejApi : Api := fun a => .error ("invalid address: " ++ a)

/-- End-to-end scenario store: owner "alice" registered event "DevCon"
(window 100-200) at time 50 on the fresh store. -/
def scenStore1 : Store :=
  (execute_register_event { time := 50 } { sender := "alice" } "DevCon"
     "https://x/img.png" "d" 100 200 Store.emptyInit).1

/-- Scenario continued: "alice" minted a badge for "bob" at time 150. -/
def scenStore2 : Store :=
  (execute_mint_badge okApi { time := 150 } { sender := "alice" } "DevCon"
     "bob" false scenStore1).1

/-- Well-formedness of the event registry: every stored record carries its
own key as `name` and a non-inverted window. -/
def eventsWF (s : Store) : Prop :=
  ∀ n ev, mapGet n s.events = some ev → ev.name = n ∧ ev.start_time < ev.end_time

/-- The dual-index badge invariant: `ATTENDEES` and `BADGES` agree under
key swap, at every key pair. -/
def badgeSync (s : Store) : Prop :=
  ∀ e a, mapGet (e, a) s.attendees = mapGet (a, e) s.badges

theorem mapGet_mapSet_self {α β : Type} [DecidableEq α] (k : α) (v : β)
    (m : List (α × β)) : mapGet k (mapSet k v m) = some v := by
  simp [mapGet, mapSet]

theorem mapGet_mapSet_ne {α β : Type} [DecidableEq α] {k k' : α} (v : β)
    (m : List (α × β)) (h : k' ≠ k) : mapGet k' (mapSet k v m) = mapGet k' m := by
  simp only [mapGet, mapSet]
  rw [if_neg (fun hx => h hx.symm)]

theorem build_event_ok_iff (env : Env) (info : MessageInfo)
    (name image description : String) (start_time end_time : Nat)
    (ev : EventData) :
    build_event env info name image description start_time end_time = .ok ev ↔
      2 ≤ strLen name ∧ strLen name ≤ 100 ∧ strStarts image "https://" = true ∧
      start_time < end_time ∧ env.time ≤ end_time ∧
      ev = { owner := info.sender, name := name, image := image,
             description := description, start_time := start_time,
             end_time := end_time } := by
  unfold build_event
  by_cases h1 : strLen name < 2
  · rw [if_pos h1]
    exact iff_of_false (by simp) (by rintro ⟨a, -, -, -, -, -⟩; omega)
  rw [if_neg h1]
  by_cases h2 : strLen name > 100
  · rw [if_pos h2]
    exact iff_of_false (by simp) (by rintro ⟨-, b, -, -, -, -⟩; omega)
  rw [if_neg h2]
  by_cases h3 : strStarts image "https://" = true
  · rw [if_neg (not_not_intro h3)]
    by_cases h4 : start_time ≥ end_time
    · rw [if_pos h4]
      exact iff_of_false (by simp) (by rintro ⟨-, -, -, d, -, -⟩; omega)
    rw [if_neg h4]
    by_cases h5 : end_time < env.time
    · rw [if_pos h5]
      exact iff_of_false (by simp) (by rintro ⟨-, -, -, -, e, -⟩; omega)
    rw [if_neg h5]
    simp only [Except.ok.injEq]
    constructor
    · intro hv
      exact ⟨by omega, by omega, h3, by omega, by omega, hv.symm⟩
    · intro hv
      exact hv.2.2.2.2.2.symm
  · rw [if_pos h3]
    exact iff_of_false (by simp) (by rintro ⟨-, -, c, -, -, -⟩; exact h3 c)

theorem register_cases (env : Env) (info : MessageInfo)
    (name image description : String) (start_time end_time : Nat) (s : Store) :
    (∃ e, execute_register_event env info name image description start_time
            end_time s = (s, .error e)) ∨
    (∃ ev, mapGet name s.events = none ∧
      build_event env info name image description start_time end_time = .ok ev ∧
      execute_register_event env info name image description start_time end_time s =
        ({ s with events := mapSet name ev s.events },
         .ok { attributes := [("register_event", name)], events := [] })) := by
  by_cases h : (mapGet name s.events).isSome
  · exact Or.inl ⟨.EventAlreadyRegistered, by simp [execute_register_event, h]⟩
  · rw [Option.not_isSome_iff_eq_none] at h
    cases hb : build_event env info name image description start_time end_time with
    | error e => exact Or.inl ⟨e, by simp [execute_register_event, h, hb]⟩
    | ok ev => exact Or.inr ⟨ev, h, rfl, by simp [execute_register_event, h, hb]⟩

theorem register_error_fst (env : Env) (info : MessageInfo)
    (name image description : String) (start_time end_time : Nat) (s : Store)
    (e : ContractError)
    (h : (execute_register_event env info name image description start_time
            end_time s).2 = .error e) :
    (execute_register_event env info name image description start_time
       end_time s).1 = s := by
  rcases register_cases env info name image description start_time end_time s with
    ⟨e', he⟩ | ⟨ev, _, _, he⟩
  · rw [he]
  · rw [he] at h
    simp at h

theorem register_ok_inv (env : Env) (info : MessageInfo)
    (name image description : String) (start_time end_time : Nat) (s s' : Store)
    (r : Response)
    (h : execute_register_event env info name image description start_time
           end_time s = (s', .ok r)) :
    mapGet name s.events = none ∧ 2 ≤ strLen name ∧ strLen name ≤ 100 ∧
    strStarts image "https://" = true ∧ start_time < end_time ∧
    env.time ≤ end_time ∧
    s'.events = mapSet name
      (EventData.mk info.sender name image description start_time end_time)
      s.events ∧
    s'.attendees = s.attendees ∧ s'.badges = s.badges ∧ s'.state = s.state ∧
    r = { attributes := [("register_event", name)], events := [] } := by
  rcases register_cases env info name image description start_time end_time s with
    ⟨e', he⟩ | ⟨ev, hn, hb, he⟩
  · rw [he] at h; simp at h
  · rw [build_event_ok_iff] at hb
    obtain ⟨hl1, hl2, hl3, hl4, hl5, hevv⟩ := hb
    subst hevv
    rw [he] at h
    obtain ⟨h1, h2⟩ := Prod.mk.injEq .. ▸ h
    refine ⟨hn, hl1, hl2, hl3, hl4, hl5, ?_, ?_, ?_, ?_, ?_⟩
    · rw [← h1]
    · rw [← h1]
    · rw [← h1]
    · rw [← h1]
    · exact (Except.ok.injEq .. ▸ h2).symm

theorem mint_cases (api : Api) (env : Env) (info : MessageInfo)
    (event attendee : String) (was_late : Bool) (s : Store) :
    (∃ e, execute_mint_badge api env info event attendee was_late s =
            (s, .error e)) ∨
    (∃ data addr, mapGet event s.events = some data ∧
      info.sender = data.owner ∧ data.start_time ≤ env.time ∧
      env.time ≤ data.end_time ∧ api attendee = .ok addr ∧
      mapGet (event, addr) s.attendees = none ∧
      execute_mint_badge api env info event attendee was_late s =
        ({ s with
            attendees := mapSet (event, addr) ({ was_late := was_late }) s.attendees,
            badges := mapSet (addr, event) ({ was_late := was_late }) s.badges },
         .ok { attributes := [],
               events := [("mint-badge",
                           [("event", event), ("attendee", addr)])] })) := by
  cases hev : mapGet event s.events with
  | none =>
    exact Or.inl ⟨.Std "dsrv_poap::state::EventData not found",
      by simp [execute_mint_badge, hev]⟩
  | some data =>
    by_cases ho : info.sender ≠ data.owner
    · exact Or.inl ⟨.Unauthorized, by simp [execute_mint_badge, hev, ho]⟩
    rw [not_not] at ho
    by_cases ht1 : env.time < data.start_time
    · exact Or.inl ⟨.EventNotStarted,
        by simp [execute_mint_badge, hev, ho, ht1]⟩
    by_cases ht2 : env.time > data.end_time
    · exact Or.inl ⟨.EventAlreadyOver,
        by simp [execute_mint_badge, hev, ho, ht1, ht2]⟩
    cases ha : api attendee with
    | error m =>
      exact Or.inl ⟨.Std m, by simp [execute_mint_badge, hev, ho, ht1, ht2, ha]⟩
    | ok addr =>
      by_cases hd : (mapGet (event, addr) s.attendees).isSome
      · exact Or.inl ⟨.BadgeAlreadyIssued,
          by simp [execute_mint_badge, hev, ho, ht1, ht2, ha, hd]⟩
      · rw [Option.not_isSome_iff_eq_none] at hd
        exact Or.inr ⟨data, addr, rfl, ho, by omega, by omega, rfl, hd,
          by simp [execute_mint_badge, hev, ho, ht1, ht2, ha, hd]⟩

theorem mint_error_fst (api : Api) (env : Env) (info : MessageInfo)
    (event attendee : String) (was_late : Bool) (s : Store) (e : ContractError)
    (h : (execute_mint_badge api env info event attendee was_late s).2 =
           .error e) :
    (execute_mint_badge api env info event attendee was_late s).1 = s := by
  rcases mint_cases api env info event attendee was_late s with
    ⟨e', he⟩ | ⟨data, addr, _, _, _, _, _, _, he⟩
  · rw [he]
  · rw [he] at h
    simp at h

theorem mint_ok_inv (api : Api) (env : Env) (info : MessageInfo)
    (event attendee : String) (was_late : Bool) (s s' : Store) (r : Response)
    (h : execute_mint_badge api env info event attendee was_late s = (s', .ok r)) :
    ∃ data addr, mapGet event s.events = some data ∧
      info.sender = data.owner ∧ data.start_time ≤ env.time ∧
      env.time ≤ data.end_time ∧ api attendee = .ok addr ∧
      mapGet (event, addr) s.attendees = none ∧
      s' = { s with
              attendees := mapSet (event, addr) ({ was_late := was_late }) s.attendees,
              badges := mapSet (addr, event) ({ was_late := was_late }) s.badges } := by
  rcases mint_cases api env info event attendee was_late s with
    ⟨e', he⟩ | ⟨data, addr, h1, h2, h3, h4, h5, h6, he⟩
  · rw [he] at h; simp at h
  · rw [he] at h
    exact ⟨data, addr, h1, h2, h3, h4, h5, h6, (Prod.mk.injEq .. ▸ h).1.symm⟩

theorem register_dup (env : Env) (info : MessageInfo)
    (name image description : String) (st en : Nat) (s : Store)
    (h : (mapGet name s.events).isSome) :
    execute_register_event env info name image description st en s =
      (s, .error .EventAlreadyRegistered) := by
  simp [execute_register_event, h]

theorem step_event_entry {s s' : Store} (hs : Step s s') {n : String}
    {ev : EventData} (h : mapGet n s.events = some ev) :
    mapGet n s'.events = some ev := by
  cases hs with
  | register env info name image description st en =>
    rcases register_cases env info name image description st en s with
      ⟨e, he⟩ | ⟨ev', hn, hb, he⟩
    · rw [he]; exact h
    · rw [he]
      show mapGet n (mapSet name ev' s.events) = some ev
      have hne : n ≠ name := by
        intro hx
        rw [hx, hn] at h
        exact Option.noConfusion h
      rw [mapGet_mapSet_ne _ _ hne]
      exact h
  | mint api env info event attendee was_late =>
    rcases mint_cases api env info event attendee was_late s with
      ⟨e, he⟩ | ⟨data, addr, h1, h2, h3, h4, h5, h6, he⟩
    · rw [he]; exact h
    · rw [he]; exact h

theorem step_eventsWF {s s' : Store} (hs : Step s s') (hw : eventsWF s) :
    eventsWF s' := by
  cases hs with
  | register env info name image description st en =>
    rcases register_cases env info name image description st en s with
      ⟨e, he⟩ | ⟨ev', hn, hb, he⟩
    · rw [he]; exact hw
    · rw [build_event_ok_iff] at hb
      obtain ⟨-, -, -, hlt, -, hevv⟩ := hb
      subst hevv
      intro n ev hget
      rw [he] at hget
      have hget2 : mapGet n (mapSet name
          (EventData.mk info.sender name image description st en) s.events) =
            some ev := hget
      by_cases hx : n = name
      · subst hx
        rw [mapGet_mapSet_self] at hget2
        obtain rfl := (Option.some.injEq .. ▸ hget2).symm
        exact ⟨rfl, hlt⟩
      · rw [mapGet_mapSet_ne _ _ hx] at hget2
        exact hw n ev hget2
  | mint api env info event attendee was_late =>
    rcases mint_cases api env info event attendee was_late s with
      ⟨e, he⟩ | ⟨data, addr, h1, h2, h3, h4, h5, h6, he⟩
    · rw [he]; exact hw
    · intro n ev hget
      rw [he] at hget
      exact hw n ev hget

theorem step_badgeSync {s s' : Store} (hs : Step s s') (hb : badgeSync s) :
    badgeSync s' := by
  cases hs with
  | register env info name image description st en =>
    rcases register_cases env info name image description st en s with
      ⟨e, he⟩ | ⟨ev', hn, hbb, he⟩
    · rw [he]; exact hb
    · intro e a
      rw [he]
      exact hb e a
  | mint api env info event attendee was_late =>
    rcases mint_cases api env info event attendee was_late s with
      ⟨e, he⟩ | ⟨data, addr, h1, h2, h3, h4, h5, h6, he⟩
    · rw [he]; exact hb
    · intro e a
      rw [he]
      show mapGet (e, a) (mapSet (event, addr) (BadgeData.mk was_late) s.attendees) =
        mapGet (a, e) (mapSet (addr, event) (BadgeData.mk was_late) s.badges)
      by_cases hx : e = event ∧ a = addr
      · obtain ⟨hx1, hx2⟩ := hx
        subst hx1
        subst hx2
        rw [mapGet_mapSet_self, mapGet_mapSet_self]
      · have hne1 : (e, a) ≠ ((event, addr) : String × String) := by
          intro hy
          rw [Prod.mk.injEq] at hy
          exact hx hy
        have hne2 : (a, e) ≠ ((addr, event) : String × String) := by
          intro hy
          rw [Prod.mk.injEq] at hy
          exact hx ⟨hy.2, hy.1⟩
        rw [mapGet_mapSet_ne _ _ hne1, mapGet_mapSet_ne _ _ hne2]
        exact hb e a

theorem reachableFrom_event_entry {t s : Store} (h : ReachableFrom t s)
    {n : String} {ev : EventData} (he : mapGet n t.events = some ev) :
    mapGet n s.events = some ev := by
  induction h with
  | refl => exact he
  | tail b c hr hstep ih => exact step_event_entry hstep ih

theorem reachableFrom_eventsWF {t s : Store} (h : ReachableFrom t s)
    (hw : eventsWF t) : eventsWF s := by
  induction h with
  | refl => exact hw
  | tail b c hr hstep ih => exact step_eventsWF hstep ih

theorem reachableFrom_badgeSync {t s : Store} (h : ReachableFrom t s)
    (hb : badgeSync t) : badgeSync s := by
  induction h with
  | refl => exact hb
  | tail b c hr hstep ih => exact step_badgeSync hstep ih

theorem emptyInit_eventsWF : eventsWF Store.emptyInit := by
  intro n ev h
  simp [mapGet, Store.emptyInit] at h

theorem emptyInit_badgeSync : badgeSync Store.emptyInit := by
  intro e a
  rfl

theorem reachable_eventsWF {s : Store} (h : Reachable s) : eventsWF s :=
  reachableFrom_eventsWF h emptyInit_eventsWF

theorem reachable_badgeSync {s : Store} (h : Reachable s) : badgeSync s :=
  reachableFrom_badgeSync h emptyInit_badgeSync

/-- C1: in every reachable store, every key pair (event, attendee) of
`ATTENDEES` has an identical-valued `BADGES` entry under the swapped key
and vice versa; every operation (register, mint — and the read-only count
query, which by its type `Store → Except String Int` cannot write)
preserves this; and a successful mint writes both entries together with
the same `BadgeData`. -/
theorem C1_badge_index_mirror (s : Store) (hs : Reachable s) :
    (∀ e a, mapGet (e, a) s.attendees = mapGet (a, e) s.badges) ∧
    (∀ s', Step s s' →
      ∀ e a, mapGet (e, a) s'.attendees = mapGet (a, e) s'.badges) ∧
    (∀ api env info event attendee was_late s' r,
      execute_mint_badge api env info event attendee was_late s = (s', .ok r) →
      ∃ addr, api attendee = .ok addr ∧
        mapGet (event, addr) s'.attendees = some (BadgeData.mk was_late) ∧
        mapGet (addr, event) s'.badges = some (BadgeData.mk was_late)) := by
  have hsync := reachable_badgeSync hs
  refine ⟨hsync, ?_, ?_⟩
  · intro s' hstep
    exact step_badgeSync hstep hsync
  · intro api env info event attendee was_late s' r h
    obtain ⟨data, addr, h1, h2, h3, h4, h5, h6, hs'⟩ :=
      mint_ok_inv api env info event attendee was_late s s' r h
    refine ⟨addr, h5, ?_, ?_⟩
    · rw [hs']
      exact mapGet_mapSet_self _ _ _
    · rw [hs']
      exact mapGet_mapSet_self _ _ _

/-- C1 witness: on the concrete scenario (register "DevCon", then mint for
"bob"), both indexes hold the badge. -/
theorem C1_badge_index_mirror_witness :
    mapGet (("DevCon" : String), ("bob" : String)) scenStore2.attendees =
        some (BadgeData.mk false) ∧
    mapGet (("bob" : String), ("DevCon" : String)) scenStore2.badges =
        some (BadgeData.mk false) := by
  have hreach : Reachable scenStore1 :=
    ReachableFrom.tail _ _ _ (ReachableFrom.refl _)
      (Step.register Store.emptyInit { time := 50 } { sender := "alice" }
        "DevCon" "https://x/img.png" "d" 100 200)
  obtain ⟨addr, ha, h1, h2⟩ :=
    (C1_badge_index_mirror scenStore1 hreach).2.2 okApi { time := 150 }
      { sender := "alice" } "DevCon" "bob" false scenStore2
      { attributes := [],
        events := [("mint-badge", [("event", "DevCon"), ("attendee", "bob")])] }
      (by decide)
  have haddr : "bob" = addr :=
    Except.ok.injEq .. ▸
      (show (Except.ok "bob" : Except String String) = .ok addr from ha)
  rw [← haddr] at h1 h2
  exact ⟨h1, h2⟩

/-- C2: mint performs its checks in exactly the source order — event load
(not-found `Std` error), owner authorization, not-started, already-over,
address validation, duplicate badge — and the first violated check
determines the error; only then do the writes happen. -/
theorem C2_mint_error_precedence (api : Api) (env : Env) (info : MessageInfo)
    (event attendee : String) (was_late : Bool) (s : Store) :
    (mapGet event s.events = none →
      execute_mint_badge api env info event attendee was_late s =
        (s, .error (.Std "dsrv_poap::state::EventData not found"))) ∧
    (∀ data, mapGet event s.events = some data →
      (info.sender ≠ data.owner →
        execute_mint_badge api env info event attendee was_late s =
          (s, .error .Unauthorized)) ∧
      (info.sender = data.owner → env.time < data.start_time →
        execute_mint_badge api env info event attendee was_late s =
          (s, .error .EventNotStarted)) ∧
      (info.sender = data.owner → data.start_time ≤ env.time →
        data.end_time < env.time →
        execute_mint_badge api env info event attendee was_late s =
          (s, .error .EventAlreadyOver)) ∧
      (∀ m, info.sender = data.owner → data.start_time ≤ env.time →
        env.time ≤ data.end_time → api attendee = .error m →
        execute_mint_badge api env info event attendee was_late s =
          (s, .error (.Std m))) ∧
      (∀ addr, info.sender = data.owner → data.start_time ≤ env.time →
        env.time ≤ data.end_time → api attendee = .ok addr →
        (mapGet (event, addr) s.attendees).isSome →
        execute_mint_badge api env info event attendee was_late s =
          (s, .error .BadgeAlreadyIssued)) ∧
      (∀ addr, info.sender = data.owner → data.start_time ≤ env.time →
        env.time ≤ data.end_time → api attendee = .ok addr →
        mapGet (event, addr) s.attendees = none →
        execute_mint_badge api env info event attendee was_late s =
          ({ s with
              attendees := mapSet (event, addr) (BadgeData.mk was_late) s.attendees,
              badges := mapSet (addr, event) (BadgeData.mk was_late) s.badges },
           .ok { attributes := [],
                 events := [("mint-badge",
                             [("event", event), ("attendee", addr)])] }))) := by
  refine ⟨?_, ?_⟩
  · intro h
    simp [execute_mint_badge, h]
  · intro data hev
    refine ⟨?_, ?_, ?_, ?_, ?_, ?_⟩
    · intro hne
      simp [execute_mint_badge, hev, hne]
    · intro hown ht
      simp [execute_mint_badge, hev, hown, ht]
    · intro hown hts hover
      simp [execute_mint_badge, hev, hown, not_lt.mpr hts, hover]
    · intro m hown hts hte ha
      simp [execute_mint_badge, hev, hown, not_lt.mpr hts, not_lt.mpr hte, ha]
    · intro addr hown hts hte ha hd
      simp [execute_mint_badge, hev, hown, not_lt.mpr hts, not_lt.mpr hte, ha, hd]
    · intro addr hown hts hte ha hd
      simp [execute_mint_badge, hev, hown, not_lt.mpr hts, not_lt.mpr hte, ha, hd]

/-- C2 witness: a non-owner request with a malformed attendee address (the
oracle rejects every input) reports `Unauthorized`, not the address
error. -/
theorem C2_mint_error_precedence_witness :
    execute_mint_badge rejApi { time := 150 } { sender := "eve" } "DevCon"
      "not an address" true scenStore1 = (scenStore1, .error .Unauthorized) :=
  ((C2_mint_error_precedence rejApi { time := 150 } { sender := "eve" }
      "DevCon" "not an address" true scenStore1).2
      (EventData.mk "alice" "DevCon" "https://x/img.png" "d" 100 200)
      (by decide)).1 (by decide)

/-- C3: register validates short-circuitingly in source order — existence
first, then name too short, name too long, image scheme, inverted window,
window already past — the first violated rule determining the error. -/
theorem C3_register_error_precedence (env : Env) (info : MessageInfo)
    (name image description : String) (st en : Nat) (s : Store) :
    ((mapGet name s.events).isSome →
      execute_register_event env info name image description st en s =
        (s, .error .EventAlreadyRegistered)) ∧
    (mapGet name s.events = none →
      (strLen name < 2 →
        execute_register_event env info name image description st en s =
          (s, .error .NameTooShort)) ∧
      (2 ≤ strLen name → 100 < strLen name →
        execute_register_event env info name image description st en s =
          (s, .error .NameTooLong)) ∧
      (2 ≤ strLen name → strLen name ≤ 100 →
        ¬ strStarts image "https://" = true →
        execute_register_event env info name image description st en s =
          (s, .error (.InvalidImageURL image))) ∧
      (2 ≤ strLen name → strLen name ≤ 100 →
        strStarts image "https://" = true → en ≤ st →
        execute_register_event env info name image description st en s =
          (s, .error .StartBeforeEnd)) ∧
      (2 ≤ strLen name → strLen name ≤ 100 →
        strStarts image "https://" = true → st < en → en < env.time →
        execute_register_event env info name image description st en s =
          (s, .error .EventAlreadyOver))) := by
  refine ⟨?_, ?_⟩
  · intro h
    simp [execute_register_event, h]
  · intro hnone
    refine ⟨?_, ?_, ?_, ?_, ?_⟩
    · intro hshort
      simp [execute_register_event, build_event, hnone, hshort]
    · intro hmin hlong
      simp [execute_register_event, build_event, hnone, not_lt.mpr hmin, hlong]
    · intro hmin hmax himg
      simp [execute_register_event, build_event, hnone, not_lt.mpr hmin,
        not_lt.mpr hmax, himg]
    · intro hmin hmax himg hge
      simp [execute_register_event, build_event, hnone, not_lt.mpr hmin,
        not_lt.mpr hmax, himg, hge]
    · intro hmin hmax himg hlt hpast
      simp [execute_register_event, build_event, hnone, not_lt.mpr hmin,
        not_lt.mpr hmax, himg, not_le.mpr hlt, hpast]

/-- C3 witness: for the unregistered name "x" with image "http://foo" and
start ≥ end, the reported error is `NameTooShort`. -/
theorem C3_register_error_precedence_witness :
    execute_register_event { time := 50 } { sender := "alice" } "x" "http://foo"
      "d" 7 7 Store.emptyInit = (Store.emptyInit, .error .NameTooShort) :=
  ((C3_register_error_precedence { time := 50 } { sender := "alice" } "x"
      "http://foo" "d" 7 7 Store.emptyInit).2 (by decide)).1 (by decide)

/-- C4: for a registered event and a mint request by the owner, mint fails
with EventNotStarted iff now is strictly before `start_time`, fails with
EventAlreadyOver iff now is strictly after `end_time`, and passes both
temporal checks (closed interval) at exactly `start_time` and exactly
`end_time`. -/
theorem C4_mint_window (s : Store) (hs : Reachable s) (api : Api) (env : Env)
    (info : MessageInfo) (event attendee : String) (was_late : Bool)
    (data : EventData) (hev : mapGet event s.events = some data)
    (hown : info.sender = data.owner) :
    ((execute_mint_badge api env info event attendee was_late s).2 =
        .error .EventNotStarted ↔ env.time < data.start_time) ∧
    ((execute_mint_badge api env info event attendee was_late s).2 =
        .error .EventAlreadyOver ↔ data.end_time < env.time) ∧
    (env.time = data.start_time ∨ env.time = data.end_time →
      (execute_mint_badge api env info event attendee was_late s).2 ≠
          .error .EventNotStarted ∧
      (execute_mint_badge api env info event attendee was_late s).2 ≠
          .error .EventAlreadyOver) := by
  have hlt : data.start_time < data.end_time :=
    (reachable_eventsWF hs event data hev).2
  have hA : env.time < data.start_time →
      (execute_mint_badge api env info event attendee was_late s).2 =
        .error .EventNotStarted := by
    intro ht
    simp [execute_mint_badge, hev, hown, ht]
  have hC : data.end_time < env.time →
      (execute_mint_badge api env info event attendee was_late s).2 =
        .error .EventAlreadyOver := by
    intro ht
    simp [execute_mint_badge, hev, hown, not_lt.mpr (hlt.trans ht).le, ht]
  have hB : data.start_time ≤ env.time → env.time ≤ data.end_time →
      (execute_mint_badge api env info event attendee was_late s).2 ≠
          .error .EventNotStarted ∧
      (execute_mint_badge api env info event attendee was_late s).2 ≠
          .error .EventAlreadyOver := by
    intro h1 h2
    cases ha : api attendee with
    | error m =>
      constructor <;>
        simp [execute_mint_badge, hev, hown, not_lt.mpr h1, not_lt.mpr h2, ha]
    | ok addr =>
      by_cases hd : (mapGet (event, addr) s.attendees).isSome
      · constructor <;>
          simp [execute_mint_badge, hev, hown, not_lt.mpr h1, not_lt.mpr h2,
            ha, hd]
      · constructor <;>
          simp [execute_mint_badge, hev, hown, not_lt.mpr h1, not_lt.mpr h2,
            ha, hd]
  refine ⟨⟨?_, hA⟩, ⟨?_, hC⟩, ?_⟩
  · intro hres
    by_contra hnot
    rw [not_lt] at hnot
    by_cases h2 : env.time ≤ data.end_time
    · exact (hB hnot h2).1 hres
    · rw [not_le] at h2
      rw [hC h2] at hres
      simp at hres
  · intro hres
    by_contra hnot
    rw [not_lt] at hnot
    by_cases h1 : data.start_time ≤ env.time
    · exact (hB h1 hnot).2 hres
    · rw [not_le] at h1
      rw [hA h1] at hres
      simp at hres
  · intro hcase
    rcases hcase with h | h
    · exact hB (le_of_eq h.symm) (by omega)
    · exact hB (by omega) (le_of_eq h)

/-- C4 witness: at exactly the start time (100) the owner's mint on the
scenario store passes both temporal checks. -/
theorem C4_mint_window_witness :
    (execute_mint_badge okApi { time := 100 } { sender := "alice" } "DevCon"
        "bob" false scenStore1).2 ≠ .error .EventNotStarted ∧
    (execute_mint_badge okApi { time := 100 } { sender := "alice" } "DevCon"
        "bob" false scenStore1).2 ≠ .error .EventAlreadyOver := by
  have hreach : Reachable scenStore1 :=
    ReachableFrom.tail _ _ _ (ReachableFrom.refl _)
      (Step.register Store.emptyInit { time := 50 } { sender := "alice" }
        "DevCon" "https://x/img.png" "d" 100 200)
  exact (C4_mint_window scenStore1 hreach okApi { time := 100 }
    { sender := "alice" } "DevCon" "bob" false
    (EventData.mk "alice" "DevCon" "https://x/img.png" "d" 100 200)
    (by decide) (by decide)).2.2 (Or.inl (by decide))

/-- C5: after a successful register of `name`, in every later reachable
store the stored record is unchanged and any re-register of that name — by
any caller, with any fields, at any time — fails with
EventAlreadyRegistered and leaves the store unchanged (create-only, never
an upsert). -/
theorem C5_register_create_only (env : Env) (info : MessageInfo)
    (name image description : String) (st en : Nat) (s s' : Store) (r : Response)
    (h : execute_register_event env info name image description st en s =
      (s', .ok r)) :
    ∀ t, ReachableFrom s' t →
      mapGet name t.events =
        some (EventData.mk info.sender name image description st en) ∧
      ∀ env2 info2 image2 description2 st2 en2,
        execute_register_event env2 info2 name image2 description2 st2 en2 t =
          (t, .error .EventAlreadyRegistered) := by
  obtain ⟨h0, h1, h2, h3, h4, h5, hse, hsa, hsb, hss, hr⟩ :=
    register_ok_inv env info name image description st en s s' r h
  intro t ht
  have hentry : mapGet name s'.events =
      some (EventData.mk info.sender name image description st en) := by
    rw [hse]
    exact mapGet_mapSet_self _ _ _
  have hentry2 := reachableFrom_event_entry ht hentry
  refine ⟨hentry2, ?_⟩
  intro env2 info2 image2 description2 st2 en2
  exact register_dup env2 info2 name image2 description2 st2 en2 t
    (by rw [hentry2]; rfl)

/-- C5 witness: after registering "DevCon", a register of the same name by
a different caller at time 300 (after the window elapsed) fails with
EventAlreadyRegistered and the stored record is the original one. -/
theorem C5_register_create_only_witness :
    mapGet "DevCon" scenStore1.events =
      some (EventData.mk "alice" "DevCon" "https://x/img.png" "d" 100 200) ∧
    execute_register_event { time := 300 } { sender := "mallory" } "DevCon"
      "https://other" "d2" 400 500 scenStore1 =
      (scenStore1, .error .EventAlreadyRegistered) := by
  obtain ⟨h1, h2⟩ := C5_register_create_only { time := 50 } { sender := "alice" }
    "DevCon" "https://x/img.png" "d" 100 200 Store.emptyInit scenStore1
    { attributes := [("register_event", "DevCon")], events := [] }
    (by decide) scenStore1 (ReachableFrom.refl _)
  exact ⟨h1, h2 { time := 300 } { sender := "mallory" } "https://other" "d2"
    400 500⟩

/-- C6 counterexample: the one-character name "¡" occupies 2 UTF-8 bytes,
so the code accepts it, while the claim (lengths in characters) says it
must fail with NameTooShort. -/
theorem C6_counterexample_one_char_name :
    ("¡" : String).length = 1 ∧
    mapGet "¡" Store.emptyInit.events = none ∧
    (execute_register_event { time := 50 } { sender := "alice" } "¡"
        "https://x/img.png" "d" 100 200 Store.emptyInit).2 ≠
      .error .NameTooShort := by
  decide

/-- C6 (amended): for an unregistered name, register fails with
NameTooShort iff the name is shorter than 2 UTF-8 bytes and with
NameTooLong iff longer than 100 UTF-8 bytes (Rust `String::len` counts
bytes, not characters); names of 2 to 100 bytes inclusive pass both length
checks. -/
theorem C6_length_checks_in_bytes (env : Env) (info : MessageInfo)
    (name image description : String) (st en : Nat) (s : Store)
    (hnone : mapGet name s.events = none) :
    ((execute_register_event env info name image description st en s).2 =
        .error .NameTooShort ↔ strLen name < 2) ∧
    ((execute_register_event env info name image description st en s).2 =
        .error .NameTooLong ↔ 100 < strLen name) ∧
    (2 ≤ strLen name → strLen name ≤ 100 →
      (execute_register_event env info name image description st en s).2 ≠
          .error .NameTooShort ∧
      (execute_register_event env info name image description st en s).2 ≠
          .error .NameTooLong) := by
  have fshort : strLen name < 2 →
      (execute_register_event env info name image description st en s).2 =
        .error .NameTooShort := by
    intro hx
    simp [execute_register_event, build_event, hnone, hx]
  have flong : 2 ≤ strLen name → 100 < strLen name →
      (execute_register_event env info name image description st en s).2 =
        .error .NameTooLong := by
    intro hmin hx
    simp [execute_register_event, build_event, hnone, not_lt.mpr hmin, hx]
  have frest : 2 ≤ strLen name → strLen name ≤ 100 →
      (execute_register_event env info name image description st en s).2 ≠
          .error .NameTooShort ∧
      (execute_register_event env info name image description st en s).2 ≠
          .error .NameTooLong := by
    intro hmin hmax
    by_cases himg : strStarts image "https://" = true
    · by_cases hge : st ≥ en
      · constructor <;> simp [execute_register_event, build_event, hnone,
          not_lt.mpr hmin, not_lt.mpr hmax, himg, hge]
      · by_cases hpast : en < env.time
        · constructor <;> simp [execute_register_event, build_event, hnone,
            not_lt.mpr hmin, not_lt.mpr hmax, himg, hge, hpast]
        · constructor <;> simp [execute_register_event, build_event, hnone,
            not_lt.mpr hmin, not_lt.mpr hmax, himg, hge, hpast]
    · constructor <;> simp [execute_register_event, build_event, hnone,
        not_lt.mpr hmin, not_lt.mpr hmax, himg]
  refine ⟨⟨?_, fshort⟩, ⟨?_, fun hx => flong (by omega) hx⟩, frest⟩
  · intro hres
    by_contra hnot
    rw [not_lt] at hnot
    by_cases hbig : 100 < strLen name
    · rw [flong hnot hbig] at hres
      simp at hres
    · rw [not_lt] at hbig
      exact (frest hnot hbig).1 hres
  · intro hres
    by_contra hnot
    rw [not_lt] at hnot
    by_cases hsmall : strLen name < 2
    · rw [fshort hsmall] at hres
      simp at hres
    · rw [not_lt] at hsmall
      exact (frest hsmall hnot).2 hres

/-- C6 witness (for the amended theorem): the one-byte name "x" on the
fresh store is rejected as NameTooShort. -/
theorem C6_length_checks_in_bytes_witness :
    (execute_register_event { time := 50 } { sender := "alice" } "x"
        "https://x/img.png" "d" 100 200 Store.emptyInit).2 =
      .error .NameTooShort :=
  (C6_length_checks_in_bytes { time := 50 } { sender := "alice" } "x"
      "https://x/img.png" "d" 100 200 Store.emptyInit (by decide)).1.mpr
    (by decide)

/-- C7: after a successful mint of (event, attendee), a second mint for the
same pair never succeeds and leaves the store unchanged; in particular a
repeat request by the owner within the window, with any second was_late
value, fails with BadgeAlreadyIssued, and both indexes retain the first
call's badge value unchanged. -/
theorem C7_mint_at_most_once (api : Api) (env : Env) (info : MessageInfo)
    (event attendee : String) (was_late : Bool) (s s' : Store) (r : Response)
    (h : execute_mint_badge api env info event attendee was_late s = (s', .ok r)) :
    (∀ env2 info2 was_late2, ∃ e,
      execute_mint_badge api env2 info2 event attendee was_late2 s' =
        (s', .error e)) ∧
    (∃ data addr, mapGet event s'.events = some data ∧
      info.sender = data.owner ∧ api attendee = .ok addr ∧
      mapGet (event, addr) s'.attendees = some (BadgeData.mk was_late) ∧
      mapGet (addr, event) s'.badges = some (BadgeData.mk was_late) ∧
      ∀ env2 was_late2, data.start_time ≤ env2.time →
        env2.time ≤ data.end_time →
        execute_mint_badge api env2 info event attendee was_late2 s' =
          (s', .error .BadgeAlreadyIssued)) := by
  obtain ⟨data, addr, hev, hown, hts, hte, ha, hd, hs'⟩ :=
    mint_ok_inv api env info event attendee was_late s s' r h
  have hev2 : mapGet event s'.events = some data := by
    rw [hs']
    exact hev
  have hatt : mapGet (event, addr) s'.attendees = some (BadgeData.mk was_late) := by
    rw [hs']
    exact mapGet_mapSet_self _ _ _
  have hbad : mapGet (addr, event) s'.badges = some (BadgeData.mk was_late) := by
    rw [hs']
    exact mapGet_mapSet_self _ _ _
  constructor
  · intro env2 info2 was_late2
    rcases mint_cases api env2 info2 event attendee was_late2 s' with
      ⟨e, he⟩ | ⟨data2, addr2, g1, g2, g3, g4, g5, g6, ge⟩
    · exact ⟨e, he⟩
    · exfalso
      have haa : addr = addr2 := by
        rw [ha] at g5
        exact Except.ok.injEq .. ▸ g5
      rw [← haa, hatt] at g6
      exact Option.noConfusion g6
  · refine ⟨data, addr, hev2, hown, ha, hatt, hbad, ?_⟩
    intro env2 was_late2 g1 g2
    simp [execute_mint_badge, hev2, hown, not_lt.mpr g1, not_lt.mpr g2, ha,
      hatt]

/-- C7 witness: the second mint for ("DevCon", "bob"), by the owner at time
160 inside the window with the opposite was_late flag, fails with
BadgeAlreadyIssued and leaves the store unchanged. -/
theorem C7_mint_at_most_once_witness :
    execute_mint_badge okApi { time := 160 } { sender := "alice" } "DevCon"
      "bob" true scenStore2 = (scenStore2, .error .BadgeAlreadyIssued) := by
  obtain ⟨-, hx⟩ := C7_mint_at_most_once okApi { time := 150 }
    { sender := "alice" } "DevCon" "bob" false scenStore1 scenStore2
    { attributes := [],
      events := [("mint-badge", [("event", "DevCon"), ("attendee", "bob")])] }
    (by decide)
  obtain ⟨data, addr, hev, hown, ha, hatt, hbad, huniv⟩ := hx
  have hdata : data =
      EventData.mk "alice" "DevCon" "https://x/img.png" "d" 100 200 := by
    have hc : mapGet "DevCon" scenStore2.events =
        some (EventData.mk "alice" "DevCon" "https://x/img.png" "d" 100 200) := by
      decide
    rw [hev] at hc
    exact Option.some.injEq .. ▸ hc
  subst hdata
  exact huniv { time := 160 } true (by decide) (by decide)

/-- C8: every register or mint call that returns an error leaves the store
exactly as it was before the call (every check precedes every write), and
consequently no reachable state has only one of the two badge indexes
written: they always agree under key swap. -/
theorem C8_error_leaves_store_unchanged :
    (∀ env info name image description st en s e,
      (execute_register_event env info name image description st en s).2 =
        .error e →
      (execute_register_event env info name image description st en s).1 = s) ∧
    (∀ api env info event attendee was_late s e,
      (execute_mint_badge api env info event attendee was_late s).2 =
        .error e →
      (execute_mint_badge api env info event attendee was_late s).1 = s) ∧
    (∀ s, Reachable s →
      ∀ e a, mapGet (e, a) s.attendees = mapGet (a, e) s.badges) := by
  refine ⟨?_, ?_, ?_⟩
  · intro env info name image description st en s e h
    exact register_error_fst env info name image description st en s e h
  · intro api env info event attendee was_late s e h
    exact mint_error_fst api env info event attendee was_late s e h
  · intro s hs
    exact reachable_badgeSync hs

/-- C8 witness: a duplicate register and an unauthorized mint both leave
the scenario store untouched. -/
theorem C8_error_leaves_store_unchanged_witness :
    (execute_register_event { time := 60 } { sender := "eve" } "DevCon"
        "https://y" "d2" 300 400 scenStore1).1 = scenStore1 ∧
    (execute_mint_badge okApi { time := 150 } { sender := "eve" } "DevCon"
        "bob" false scenStore1).1 = scenStore1 :=
  ⟨C8_error_leaves_store_unchanged.1 { time := 60 } { sender := "eve" }
      "DevCon" "https://y" "d2" 300 400 scenStore1 .EventAlreadyRegistered
      (by decide),
    C8_error_leaves_store_unchanged.2.1 okApi { time := 150 }
      { sender := "eve" } "DevCon" "bob" false scenStore1 .Unauthorized
      (by decide)⟩

/-- C9: in every reachable store each EVENTS entry carries its key as its
`name` field and a strictly ordered window; a successful register writes
the record with `owner` equal to the calling identity; and no operation
ever modifies an existing EVENTS entry, so the owner recorded at creation
persists. -/
theorem C9_event_records_wellformed :
    (∀ s, Reachable s → ∀ n ev, mapGet n s.events = some ev →
      ev.name = n ∧ ev.start_time < ev.end_time) ∧
    (∀ env info name image description st en s s' r,
      execute_register_event env info name image description st en s =
        (s', .ok r) →
      mapGet name s'.events =
        some (EventData.mk info.sender name image description st en)) ∧
    (∀ s s', Step s s' → ∀ n ev, mapGet n s.events = some ev →
      mapGet n s'.events = some ev) := by
  refine ⟨?_, ?_, ?_⟩
  · intro s hs
    exact reachable_eventsWF hs
  · intro env info name image description st en s s' r h
    obtain ⟨h0, h1, h2, h3, h4, h5, hse, hsa, hsb, hss, hr⟩ :=
      register_ok_inv env info name image description st en s s' r h
    rw [hse]
    exact mapGet_mapSet_self _ _ _
  · intro s s' hstep n ev h
    exact step_event_entry hstep h

/-- C9 witness: the scenario register stored the record under its own name
with owner "alice" and window 100 < 200. -/
theorem C9_event_records_wellformed_witness :
    mapGet "DevCon" scenStore1.events =
      some (EventData.mk "alice" "DevCon" "https://x/img.png" "d" 100 200) :=
  C9_event_records_wellformed.2.1 { time := 50 } { sender := "alice" }
    "DevCon" "https://x/img.png" "d" 100 200 Store.emptyInit scenStore1
    { attributes := [("register_event", "DevCon")], events := [] } (by decide)

/-- C10: frame conditions — a successful register adds exactly one EVENTS
entry (previously absent, now the built record, all other keys untouched)
and leaves ATTENDEES, BADGES and the counter state unchanged; a successful
mint adds exactly one entry to each badge index (previously absent) and
leaves EVENTS, all other badge entries, and the counter state unchanged. -/
theorem C10_frame_conditions :
    (∀ env info name image description st en s s' r,
      execute_register_event env info name image description st en s =
        (s', .ok r) →
      mapGet name s.events = none ∧
      mapGet name s'.events =
        some (EventData.mk info.sender name image description st en) ∧
      (∀ k, k ≠ name → mapGet k s'.events = mapGet k s.events) ∧
      s'.attendees = s.attendees ∧ s'.badges = s.badges ∧
      s'.state = s.state) ∧
    (∀ api env info event attendee was_late s s' r,
      execute_mint_badge api env info event attendee was_late s = (s', .ok r) →
      ∃ addr, api attendee = .ok addr ∧
        mapGet (event, addr) s.attendees = none ∧
        mapGet (event, addr) s'.attendees = some (BadgeData.mk was_late) ∧
        (∀ k, k ≠ (event, addr) →
          mapGet k s'.attendees = mapGet k s.attendees) ∧
        mapGet (addr, event) s'.badges = some (BadgeData.mk was_late) ∧
        (∀ k, k ≠ (addr, event) → mapGet k s'.badges = mapGet k s.badges) ∧
        s'.events = s.events ∧ s'.state = s.state) := by
  constructor
  · intro env info name image description st en s s' r h
    obtain ⟨h0, h1, h2, h3, h4, h5, hse, hsa, hsb, hss, hr⟩ :=
      register_ok_inv env info name image description st en s s' r h
    refine ⟨h0, ?_, ?_, hsa, hsb, hss⟩
    · rw [hse]
      exact mapGet_mapSet_self _ _ _
    · intro k hk
      rw [hse]
      exact mapGet_mapSet_ne _ _ hk
  · intro api env info event attendee was_late s s' r h
    obtain ⟨data, addr, hev, hown, hts, hte, ha, hd, hs'⟩ :=
      mint_ok_inv api env info event attendee was_late s s' r h
    refine ⟨addr, ha, hd, ?_, ?_, ?_, ?_, ?_, ?_⟩
    · rw [hs']
      exact mapGet_mapSet_self _ _ _
    · intro k hk
      rw [hs']
      exact mapGet_mapSet_ne _ _ hk
    · rw [hs']
      exact mapGet_mapSet_self _ _ _
    · intro k hk
      rw [hs']
      exact mapGet_mapSet_ne _ _ hk
    · rw [hs']
    · rw [hs']

/-- C10 witness: the scenario mint left EVENTS unchanged and did not touch
the badge entry of an unrelated attendee key. -/
theorem C10_frame_conditions_witness :
    scenStore2.events = scenStore1.events ∧
    mapGet (("DevCon" : String), ("carol" : String)) scenStore2.attendees =
      mapGet (("DevCon" : String), ("carol" : String)) scenStore1.attendees := by
  obtain ⟨addr, ha, hd, hself, hother, hbself, hbother, hevents, hstate⟩ :=
    C10_frame_conditions.2 okApi { time := 150 } { sender := "alice" }
      "DevCon" "bob" false scenStore1 scenStore2
      { attributes := [],
        events := [("mint-badge", [("event", "DevCon"), ("attendee", "bob")])] }
      (by decide)
  have haddr : "bob" = addr :=
    Except.ok.injEq .. ▸
      (show (Except.ok "bob" : Except String String) = .ok addr from ha)
  refine ⟨hevents, hother _ ?_⟩
  rw [← haddr]
  decide

end DsrvPoap
